import Mathlib

/- A shallow embedding of the atari multitask transfer benchmark
   (`lib/__init__.py`).  Python dicts are modelled as association lists in
   insertion order, the process-wide random generator as an abstract stream
   `rng : Nat → Nat` consumed one draw per call (each call records the index
   of the next unconsumed draw), and fallible Python statements (attribute
   errors, index errors) as `Except String`. -/

namespace AtariMultitask

/-- The game suite, the `GAMES` list of the source: 59 unique names. -/
def GAMES : List String :=
  ["air_raid", "alien", "amidar", "assault", "asterix",
   "asteroids", "atlantis", "bank_heist", "battle_zone",
   "beam_rider", "berzerk", "bowling", "boxing", "breakout",
   "carnival", "centipede", "chopper_command", "crazy_climber",
   "demon_attack", "double_dunk", "elevator_action", "enduro",
   "fishing_derby", "freeway", "frostbite", "gopher", "gravitar",
   "ice_hockey", "jamesbond", "journey_escape", "kangaroo", "krull",
   "kung_fu_master", "montezuma_revenge", "ms_pacman",
   "name_this_game", "phoenix", "pitfall", "pong", "pooyan",
   "private_eye", "qbert", "riverraid", "road_runner", "robotank",
   "seaquest", "skiing", "solaris", "space_invaders", "star_gunner",
   "tennis", "time_pilot", "tutankham", "up_n_down", "venture",
   "video_pinball", "wizard_of_wor", "yars_revenge", "zaxxon"]

/-- `NUM_GAMES = len(GAMES)` of the source. -/
def NUM_GAMES : Nat := GAMES.length

/-- `random.sample(population, k)`: a uniform draw of `k` distinct elements
    without replacement.  The population is carried as a list in a fixed
    iteration order; each draw consumes one stream value, picks the element
    at index `rng i % size`, and removes it.  Returns the chosen elements in
    draw order, the remaining population, and the next stream index.
    (`random.sample` raises `ValueError` when `k` exceeds the population
    size; that case, returned here as an exhausted draw, is proved
    unreachable in `BenchmarkParms`.) -/
def sample (rng : Nat → Nat) : Nat → List String → Nat → List String × List String × Nat
  | 0, pop, i => ([], pop, i)
  | _ + 1, [], i => ([], [], i)
  | k + 1, p :: ps, i =>
      let j := rng i % (p :: ps).length
      let x := (p :: ps).getD j p
      let rest := (p :: ps).eraseIdx j
      let r := sample rng k rest (i + 1)
      (x :: r.1, r.2.1, r.2.2)

/-- The fold construction loop of `BenchmarkParms.__init__`:
    `for i in range(num_folds):` draw `fold_size + 1` games for the first
    `remainder` folds and `fold_size` for the rest, removing each draw from
    the remaining set (`games -= set(self.folds[i])`, which for a draw
    without replacement is exactly the remaining population returned by
    `sample`).  Arguments: folds still to build, current fold index, the
    remaining games, next stream index. -/
def mkFolds (rng : Nat → Nat) (fold_size remainder : Nat) :
    Nat → Nat → List String → Nat → List (List String) × List String × Nat
  | 0, _, games, ri => ([], games, ri)
  | count + 1, i, games, ri =>
      let n := if i < remainder then fold_size + 1 else fold_size
      let s := sample rng n games ri
      let r := mkFolds rng fold_size remainder count (i + 1) s.2.1 s.2.2
      (s.1 :: r.1, r.2.1, r.2.2)

/-- The intended fold sizes, fold by fold, starting at fold index `i`. -/
def foldSizes (fold_size remainder : Nat) : Nat → Nat → List Nat
  | 0, _ => []
  | count + 1, i =>
      (if i < remainder then fold_size + 1 else fold_size) ::
        foldSizes fold_size remainder count (i + 1)

/-- The attributes of a `BenchmarkParms` object.  `__init__` accepts a
    `max_rounds_per_game` argument but never assigns
    `self.max_rounds_per_game`, so the attribute is absent (`none`) on a
    freshly constructed object; `load_from_file` is the only place that
    sets it. -/
structure BenchmarkParms where
  num_folds : Nat
  max_turns_w_no_reward : Nat
  seed : Int
  folds : List (List String)
  max_rounds_per_game : Option Nat
  deriving Repr, DecidableEq

/-- `BenchmarkParms.__init__`.  `self.seed = random.random() if seed is None
    else seed`: when no seed is passed, one draw is consumed from the same
    process-wide stream (shifting all later `random.sample` draws by one);
    the drawn value is modelled as the stream value itself.  The seed is
    stored but never fed back into the generator: the partition draw reads
    the ambient stream directly.  `fold_size`/`remainder` use the global
    `NUM_GAMES`, which equals the length of the suite passed in. -/
def BenchmarkParms_init (rng : Nat → Nat) (num_folds max_turns_w_no_reward : Nat)
    (seed : Option Int) (game_names : List String) : BenchmarkParms :=
  let s : Int × Nat := match seed with
    | some v => (v, 0)
    | none => ((rng 0 : Nat), 1)
  let fold_size := game_names.length / num_folds
  let remainder := game_names.length % num_folds
  let out := mkFolds rng fold_size remainder num_folds 0 game_names s.2
  { num_folds := num_folds, max_turns_w_no_reward := max_turns_w_no_reward,
    seed := s.1, folds := out.1, max_rounds_per_game := none }

/-- The JSON document written by `BenchmarkParms.save`. -/
structure SavedParms where
  folds : List (List String)
  seed : Int
  max_turns_w_no_reward : Nat
  max_rounds_per_game : Nat
  deriving Repr, DecidableEq

/-- `BenchmarkParms.save`: builds `filedata` from the four attributes.
    Reading `self.max_rounds_per_game` raises `AttributeError` whenever the
    attribute was never assigned. -/
def BenchmarkParms_save (p : BenchmarkParms) : Except String SavedParms :=
  match p.max_rounds_per_game with
  | none => .error ("AttributeError: BenchmarkParms instance has no attribute max_rounds_per_game")
  | some m => .ok { folds := p.folds, seed := p.seed,
                    max_turns_w_no_reward := p.max_turns_w_no_reward,
                    max_rounds_per_game := m }

/-- `BenchmarkParms.load_from_file`: constructs a default `BenchmarkParms()`
    (a fresh unseeded partition of the suite, consuming ambient randomness)
    and then overwrites its fields from the file data. -/
def BenchmarkParms_load_from_file (rng : Nat → Nat) (filedata : SavedParms) : BenchmarkParms :=
  let parms := BenchmarkParms_init rng 5 10000 none GAMES
  { parms with
    folds := filedata.folds,
    num_folds := filedata.folds.length,
    max_turns_w_no_reward := filedata.max_turns_w_no_reward,
    seed := filedata.seed,
    max_rounds_per_game := some filedata.max_rounds_per_game }

/- ### Lemmas on `sample` and `mkFolds` -/

lemma getD_cons_eraseIdx_perm :
    ∀ (l : List String) (j : Nat), j < l.length → ∀ d : String,
      (l.getD j d :: l.eraseIdx j).Perm l := by
  intro l
  induction l with
  | nil => intro j hj d; simp at hj
  | cons x xs ih =>
      intro j hj d
      cases j with
      | zero => simp [List.getD, List.eraseIdx]
      | succ j =>
          have hj' : j < xs.length := by simpa using hj
          have step : (xs.getD j d :: x :: xs.eraseIdx j).Perm (x :: xs.getD j d :: xs.eraseIdx j) :=
            List.Perm.swap x (xs.getD j d) (xs.eraseIdx j)
          have tail : (x :: xs.getD j d :: xs.eraseIdx j).Perm (x :: xs) :=
            (ih j hj' d).cons x
          simpa [List.getD, List.eraseIdx] using step.trans tail

lemma sample_length (rng : Nat → Nat) :
    ∀ (k : Nat) (pop : List String) (i : Nat), k ≤ pop.length →
      (sample rng k pop i).1.length = k ∧
      (sample rng k pop i).2.1.length = pop.length - k := by
  intro k
  induction k with
  | zero => intro pop i _; simp [sample]
  | succ k ih =>
      intro pop i hk
      match pop with
      | [] => simp at hk
      | p :: ps =>
          have hpos : 0 < (p :: ps).length := by simp
          have hj : rng i % (p :: ps).length < (p :: ps).length := Nat.mod_lt _ hpos
          have hlen : ((p :: ps).eraseIdx (rng i % (p :: ps).length)).length + 1
              = (p :: ps).length := List.length_eraseIdx_add_one hj
          have hk' : k ≤ ((p :: ps).eraseIdx (rng i % (p :: ps).length)).length := by
            simp only [List.length_cons] at hk hlen ⊢; omega
          have := ih ((p :: ps).eraseIdx (rng i % (p :: ps).length)) (i + 1) hk'
          simp only [sample]
          constructor
          · simpa using this.1
          · rw [this.2]
            simp only [List.length_cons] at hlen ⊢
            omega

lemma sample_perm (rng : Nat → Nat) :
    ∀ (k : Nat) (pop : List String) (i : Nat), k ≤ pop.length →
      ((sample rng k pop i).1 ++ (sample rng k pop i).2.1).Perm pop := by
  intro k
  induction k with
  | zero => intro pop i _; simp [sample]
  | succ k ih =>
      intro pop i hk
      match pop with
      | [] => simp at hk
      | p :: ps =>
          have hpos : 0 < (p :: ps).length := by simp
          have hj : rng i % (p :: ps).length < (p :: ps).length := Nat.mod_lt _ hpos
          have hlen : ((p :: ps).eraseIdx (rng i % (p :: ps).length)).length + 1
              = (p :: ps).length := List.length_eraseIdx_add_one hj
          have hk' : k ≤ ((p :: ps).eraseIdx (rng i % (p :: ps).length)).length := by
            simp only [List.length_cons] at hk hlen ⊢; omega
          have tail := ih ((p :: ps).eraseIdx (rng i % (p :: ps).length)) (i + 1) hk'
          have head := getD_cons_eraseIdx_perm (p :: ps) (rng i % (p :: ps).length) hj p
          simp only [sample]
          exact (List.Perm.cons _ tail).trans head

lemma foldSizes_length (fs r : Nat) :
    ∀ (count i : Nat), (foldSizes fs r count i).length = count := by
  intro count
  induction count with
  | zero => intro i; simp [foldSizes]
  | succ count ih => intro i; simp [foldSizes, ih]

lemma foldSizes_sum (fs r : Nat) :
    ∀ (count i : Nat), (foldSizes fs r count i).sum
      = count * fs + (min r (i + count) - min r i) := by
  intro count
  induction count with
  | zero => intro i; simp [foldSizes]
  | succ count ih =>
      intro i
      simp only [foldSizes, List.sum_cons, ih (i + 1)]
      have hmul : (count + 1) * fs = count * fs + fs := by rw [Nat.succ_mul]
      rcases Nat.lt_or_ge i r with h | h
      · rw [if_pos h, hmul]; omega
      · rw [if_neg (by omega), hmul]; omega

lemma foldSizes_getD (fs r : Nat) :
    ∀ (count i j : Nat), j < count →
      (foldSizes fs r count i).getD j 0 = if i + j < r then fs + 1 else fs := by
  intro count
  induction count with
  | zero => intro i j hj; omega
  | succ count ih =>
      intro i j hj
      cases j with
      | zero => simp [foldSizes]
      | succ j =>
          have := ih (i + 1) j (by omega)
          simp only [foldSizes, List.getD_cons_succ]
          rw [this]
          have : i + 1 + j = i + (j + 1) := by omega
          rw [this]

lemma mkFolds_spec (rng : Nat → Nat) (fs r : Nat) :
    ∀ (count i : Nat) (games : List String) (ri : Nat),
      (foldSizes fs r count i).sum ≤ games.length →
      (mkFolds rng fs r count i games ri).1.map List.length = foldSizes fs r count i ∧
      ((mkFolds rng fs r count i games ri).1.flatten ++
        (mkFolds rng fs r count i games ri).2.1).Perm games ∧
      (mkFolds rng fs r count i games ri).2.1.length
        = games.length - (foldSizes fs r count i).sum := by
  intro count
  induction count with
  | zero => intro i games ri _; simp [mkFolds, foldSizes]
  | succ count ih =>
      intro i games ri hsum
      simp only [foldSizes, List.sum_cons] at hsum
      set n := if i < r then fs + 1 else fs with hn
      have hnle : n ≤ games.length := by omega
      have hslen := sample_length rng n games ri hnle
      have hsperm := sample_perm rng n games ri hnle
      have hrest : (foldSizes fs r count (i + 1)).sum ≤ (sample rng n games ri).2.1.length := by
        rw [hslen.2]; omega
      have hih := ih (i + 1) (sample rng n games ri).2.1 (sample rng n games ri).2.2 hrest
      refine ⟨?_, ?_, ?_⟩
      · simp only [mkFolds, List.map_cons, foldSizes]
        rw [hslen.1, hih.1]
      · simp only [mkFolds, List.flatten_cons, List.append_assoc]
        exact ((hih.2.1).append_left (sample rng n games ri).1).trans hsperm
      · simp only [mkFolds, foldSizes, List.sum_cons]
        rw [hih.2.2, hslen.2]
        omega

/- ### Claim theorems on `BenchmarkParms` -/

lemma map_length_getD :
    ∀ (L : List (List String)) (i : Nat), i < L.length →
      (L.map List.length).getD i 0 = (L.getD i []).length := by
  intro L
  induction L with
  | nil => intro i hi; simp at hi
  | cons x xs ih =>
      intro i hi
      cases i with
      | zero => simp
      | succ i => simpa using ih i (by simpa using hi)

/-- Claim C2: for every suite of unique game names and every fold count
    `k ≥ 1`, `BenchmarkParms.__init__` produces exactly `k` folds, each of
    whose sizes is `⌈N/k⌉ = N/k + 1` for the first `N mod k` folds and
    `⌊N/k⌋ = N/k` for the rest; the folds are individually duplicate-free,
    pairwise disjoint, and their union (concatenation) is a permutation of
    the whole suite.  This holds for every random stream. -/
theorem BenchmarkParms_fold_partition (rng : Nat → Nat) (seed : Option Int)
    (mtw : Nat) (game_names : List String) (k : Nat)
    (hk : 1 ≤ k) (hnd : game_names.Nodup) :
    (BenchmarkParms_init rng k mtw seed game_names).folds.length = k ∧
    (∀ i, i < k →
      ((BenchmarkParms_init rng k mtw seed game_names).folds.getD i []).length
        = if i < game_names.length % k then game_names.length / k + 1
          else game_names.length / k) ∧
    (BenchmarkParms_init rng k mtw seed game_names).folds.flatten.Perm game_names ∧
    (∀ f, f ∈ (BenchmarkParms_init rng k mtw seed game_names).folds → f.Nodup) ∧
    (BenchmarkParms_init rng k mtw seed game_names).folds.Pairwise List.Disjoint := by
  set N := game_names.length with hN
  set fs := N / k with hfs
  set r := N % k with hr
  have hrk : r < k := Nat.mod_lt _ (by omega)
  have hsumN : (foldSizes fs r k 0).sum = N := by
    rw [foldSizes_sum]
    have h1 : min r (0 + k) = r := by omega
    have h2 : min r 0 = 0 := by omega
    rw [h1, h2]
    have hdm := Nat.div_add_mod N k
    rw [← hfs, ← hr] at hdm
    omega
  have hsum : (foldSizes fs r k 0).sum ≤ N := by omega
  obtain ⟨i0, hfolds⟩ : ∃ i0,
      (BenchmarkParms_init rng k mtw seed game_names).folds
        = (mkFolds rng fs r k 0 game_names i0).1 := by
    cases seed with
    | none => exact ⟨1, rfl⟩
    | some v => exact ⟨0, rfl⟩
  have hspec := mkFolds_spec rng fs r k 0 game_names i0 hsum
  have hremnil : (mkFolds rng fs r k 0 game_names i0).2.1 = [] := by
    have := hspec.2.2
    rw [hsumN] at this
    have hlen : (mkFolds rng fs r k 0 game_names i0).2.1.length = 0 := by omega
    exact List.length_eq_zero.mp hlen
  have hperm : (mkFolds rng fs r k 0 game_names i0).1.flatten.Perm game_names := by
    have := hspec.2.1
    rwa [hremnil, List.append_nil] at this
  have hlenk : (mkFolds rng fs r k 0 game_names i0).1.length = k := by
    have := congrArg List.length hspec.1
    rw [List.length_map, foldSizes_length] at this
    exact this
  have hflatnd : (mkFolds rng fs r k 0 game_names i0).1.flatten.Nodup :=
    hperm.symm.nodup hnd
  have hnj := List.nodup_flatten.mp hflatnd
  refine ⟨?_, ?_, ?_, ?_, ?_⟩
  · rw [hfolds]; exact hlenk
  · intro i hi
    rw [hfolds]
    have h1 : ((mkFolds rng fs r k 0 game_names i0).1.map List.length).getD i 0
        = ((mkFolds rng fs r k 0 game_names i0).1.getD i []).length :=
      map_length_getD _ i (by omega)
    rw [hspec.1] at h1
    have h2 := foldSizes_getD fs r k 0 i hi
    rw [Nat.zero_add] at h2
    rw [← h1, h2]
  · rw [hfolds]; exact hperm
  · intro f hf
    rw [hfolds] at hf
    exact hnj.1 f hf
  · rw [hfolds]; exact hnj.2

/-- Witness for `BenchmarkParms_fold_partition`: the real 59-game suite split
    into 5 folds (the defaults of `main`), under the all-zeros stream. -/
theorem BenchmarkParms_fold_partition_witness :
    (1 ≤ 5 ∧ GAMES.Nodup) ∧
    ((BenchmarkParms_init (fun _ => 0) 5 10000 (some 1) GAMES).folds.length = 5 ∧
    (∀ i, i < 5 →
      ((BenchmarkParms_init (fun _ => 0) 5 10000 (some 1) GAMES).folds.getD i []).length
        = if i < GAMES.length % 5 then GAMES.length / 5 + 1
          else GAMES.length / 5) ∧
    (BenchmarkParms_init (fun _ => 0) 5 10000 (some 1) GAMES).folds.flatten.Perm GAMES ∧
    (∀ f, f ∈ (BenchmarkParms_init (fun _ => 0) 5 10000 (some 1) GAMES).folds → f.Nodup) ∧
    (BenchmarkParms_init (fun _ => 0) 5 10000 (some 1) GAMES).folds.Pairwise List.Disjoint) :=
  ⟨⟨by decide, by decide⟩,
    BenchmarkParms_fold_partition (fun _ => 0) (some 1) 10000 GAMES 5 (by decide) (by decide)⟩

/-- Claim C3 counterexample: two constructions given identical suite size,
    fold count and seed (42), but different ambient generator states,
    produce different fold assignments: the seed argument is stored but
    never fed to the generator, so it does not determine the partition. -/
theorem BenchmarkParms_seed_does_not_fix_partition :
    (BenchmarkParms_init (fun _ => 0) 2 10000 (some 42) ["air_raid", "alien"]).folds
      ≠ (BenchmarkParms_init (fun _ => 1) 2 10000 (some 42) ["air_raid", "alien"]).folds := by
  decide

/-- Claim C3 amended: the fold assignment is a function of the suite, the
    fold count and the ambient generator stream alone.  Two constructions
    given the same stream produce identical folds whatever seeds (and other
    parameters) they are given; determinism therefore holds for identical
    global generator state, not for identical seed. -/
theorem BenchmarkParms_partition_determinism (rng : Nat → Nat) (k mtw1 mtw2 : Nat)
    (game_names : List String) (s1 s2 : Int) :
    (BenchmarkParms_init rng k mtw1 (some s1) game_names).folds
      = (BenchmarkParms_init rng k mtw2 (some s2) game_names).folds := rfl

/-- Claim C8 (code bug): `BenchmarkParms.__init__` accepts a
    `max_rounds_per_game` argument but never assigns the attribute, so
    `save` — which reads `self.max_rounds_per_game` — raises
    `AttributeError` on every freshly constructed configuration; the
    save-then-load round trip can never succeed. -/
theorem BenchmarkParms_save_fails_on_fresh_parms :
    BenchmarkParms_save (BenchmarkParms_init (fun _ => 0) 5 10000 (some 7) GAMES)
      = .error ("AttributeError: BenchmarkParms instance has no attribute max_rounds_per_game") :=
  rfl

/- ### Gym environment and agent models -/

/-- The gym environment capability used by the benchmark: `reset`, `step`
    returning `(observation, reward, done, info)` with `info` dropped, and
    the attribute `action_space.n`, the count of valid discrete actions.
    State is threaded explicitly through `σ`. -/
structure GymEnv (σ Obs : Type) where
  init : σ
  reset : σ → σ × Obs
  step : σ → Nat → σ × Obs × Int × Bool
  n : Nat

/-- The agent capability `__call__(observation, reward) → action`, with the
    agent's mutable learned state threaded explicitly through `α`. -/
structure AgentM (α Obs : Type) where
  init : α
  call : α → Obs → Int → α × Nat

/-- A `BenchmarkResult`: reward per round, the rounds recorded as episode
    ends, and which games were started at which round. -/
structure BenchmarkResult where
  rewards : List Int
  dones : List Nat
  games : List (String × Nat)
  deriving Repr, DecidableEq

/- ### TestRun -/

/-- The loop state of `TestRun.__call__`, together with ghost
    instrumentation lists recording, turn by turn, the candidate action the
    agent returned, the action actually passed to `game.step`, the reward
    argument passed to the agent, and the `done` flag the game reported. -/
structure TestRunState (σ α : Type) (Obs : Type) where
  env : σ
  ag : α
  observation : Obs
  reward : Int
  result : BenchmarkResult
  candActions : List Nat
  sentActions : List Nat
  agentRewards : List Int
  doneFlags : List Bool

/-- One iteration of the `for round_num in xrange(max_rounds_per_game)`
    body of `TestRun.__call__`: query the agent, map invalid actions
    (`action >= game.action_space.n`) to no-op 0, step the game, record the
    reward, and on `done` reset the game and record the round index. -/
def TestRun_step (g : GymEnv σ Obs) (agent : AgentM α Obs) (round_num : Nat)
    (s : TestRunState σ α Obs) : TestRunState σ α Obs :=
  let a := agent.call s.ag s.observation s.reward
  let action := if g.n ≤ a.2 then 0 else a.2
  let st := g.step s.env action
  let result := { s.result with rewards := s.result.rewards ++ [st.2.2.1] }
  let base : TestRunState σ α Obs :=
    { env := st.1, ag := a.1, observation := st.2.1, reward := st.2.2.1,
      result := result,
      candActions := s.candActions ++ [a.2],
      sentActions := s.sentActions ++ [action],
      agentRewards := s.agentRewards ++ [s.reward],
      doneFlags := s.doneFlags ++ [st.2.2.2] }
  if st.2.2.2 then
    let r := g.reset st.1
    { base with
      env := r.1,
      observation := r.2,
      result := { result with dones := result.dones ++ [round_num] } }
  else base

/-- `TestRun.__call__`: reset the game, start with reward 0, and run the
    body for rounds `0, 1, …, max_rounds_per_game - 1`.  The
    `BenchmarkResult` starts with the game recorded at round 0
    (`BenchmarkResult.__init__` with a game name). -/
def TestRun_call (g : GymEnv σ Obs) (agent : AgentM α Obs) (game_name : String)
    (max_rounds_per_game : Nat) : TestRunState σ α Obs :=
  let r0 := g.reset g.init
  let s0 : TestRunState σ α Obs :=
    { env := r0.1, ag := agent.init, observation := r0.2, reward := 0,
      result := { rewards := [], dones := [], games := [(game_name, 0)] },
      candActions := [], sentActions := [], agentRewards := [], doneFlags := [] }
  (List.range max_rounds_per_game).foldl (fun s i => TestRun_step g agent i s) s0

lemma TestRun_step_lengths (g : GymEnv σ Obs) (agent : AgentM α Obs)
    (i : Nat) (s : TestRunState σ α Obs) :
    (TestRun_step g agent i s).result.rewards.length = s.result.rewards.length + 1 ∧
    (TestRun_step g agent i s).candActions.length = s.candActions.length + 1 ∧
    (TestRun_step g agent i s).sentActions.length = s.sentActions.length + 1 := by
  simp only [TestRun_step]
  by_cases h : (g.step s.env (if g.n ≤ (agent.call s.ag s.observation s.reward).2 then 0
      else (agent.call s.ag s.observation s.reward).2)).2.2.2
  · simp [h]
  · simp [h]

lemma TestRun_foldl_lengths (g : GymEnv σ Obs) (agent : AgentM α Obs) :
    ∀ (rounds : List Nat) (s : TestRunState σ α Obs),
      ((rounds.foldl (fun s i => TestRun_step g agent i s) s).result.rewards.length
          = s.result.rewards.length + rounds.length) ∧
      ((rounds.foldl (fun s i => TestRun_step g agent i s) s).candActions.length
          = s.candActions.length + rounds.length) ∧
      ((rounds.foldl (fun s i => TestRun_step g agent i s) s).sentActions.length
          = s.sentActions.length + rounds.length) := by
  intro rounds
  induction rounds with
  | nil => intro s; simp
  | cons r rs ih =>
      intro s
      have hs := TestRun_step_lengths g agent r s
      have hrec := ih (TestRun_step g agent r s)
      simp only [List.foldl_cons, List.length_cons]
      refine ⟨?_, ?_, ?_⟩
      · rw [hrec.1, hs.1]; omega
      · rw [hrec.2.1, hs.2.1]; omega
      · rw [hrec.2.2, hs.2.2]; omega

/-- Claim C6: `TestRun.__call__` queries the agent and steps the game
    exactly `max_rounds_per_game` times and returns a trace whose reward
    sequence has length exactly `max_rounds_per_game`, for every agent,
    game and round budget — episode terminations inside the budget reset
    the game and continue the loop instead of ending the run. -/
theorem TestRun_trace_length (g : GymEnv σ Obs) (agent : AgentM α Obs)
    (game_name : String) (max_rounds_per_game : Nat) :
    (TestRun_call g agent game_name max_rounds_per_game).result.rewards.length
        = max_rounds_per_game ∧
    (TestRun_call g agent game_name max_rounds_per_game).candActions.length
        = max_rounds_per_game ∧
    (TestRun_call g agent game_name max_rounds_per_game).sentActions.length
        = max_rounds_per_game := by
  have := TestRun_foldl_lengths g agent (List.range max_rounds_per_game)
    { env := (g.reset g.init).1, ag := agent.init, observation := (g.reset g.init).2, reward := 0,
      result := { rewards := [], dones := [], games := [(game_name, 0)] },
      candActions := [], sentActions := [], agentRewards := [], doneFlags := [] }
  simpa [TestRun_call, List.length_range] using this

lemma TestRun_step_sent (g : GymEnv σ Obs) (agent : AgentM α Obs)
    (i : Nat) (s : TestRunState σ α Obs)
    (h : s.sentActions = s.candActions.map (fun a => if g.n ≤ a then 0 else a)) :
    (TestRun_step g agent i s).sentActions
      = (TestRun_step g agent i s).candActions.map (fun a => if g.n ≤ a then 0 else a) := by
  simp only [TestRun_step]
  by_cases hd : (g.step s.env (if g.n ≤ (agent.call s.ag s.observation s.reward).2 then 0
      else (agent.call s.ag s.observation s.reward).2)).2.2.2
  · simp [hd, h]
  · simp [hd, h]

lemma TestRun_foldl_sent (g : GymEnv σ Obs) (agent : AgentM α Obs) :
    ∀ (rounds : List Nat) (s : TestRunState σ α Obs),
      s.sentActions = s.candActions.map (fun a => if g.n ≤ a then 0 else a) →
      (rounds.foldl (fun s i => TestRun_step g agent i s) s).sentActions
        = (rounds.foldl (fun s i => TestRun_step g agent i s) s).candActions.map
            (fun a => if g.n ≤ a then 0 else a) := by
  intro rounds
  induction rounds with
  | nil => intro s h; simpa using h
  | cons r rs ih =>
      intro s h
      simp only [List.foldl_cons]
      exact ih _ (TestRun_step_sent g agent r s h)

/-- Claim C7: on every turn of an evaluation run, the action actually
    passed to `game.step` is the candidate action when it is valid and the
    no-op action 0 otherwise, so (as long as the game has at least one
    valid action) every action sent lies inside the valid range
    `[0, action_space.n)`. -/
theorem TestRun_actions_remapped (g : GymEnv σ Obs) (agent : AgentM α Obs)
    (game_name : String) (max_rounds_per_game : Nat) (hn : 0 < g.n) :
    (TestRun_call g agent game_name max_rounds_per_game).sentActions
      = (TestRun_call g agent game_name max_rounds_per_game).candActions.map
          (fun a => if g.n ≤ a then 0 else a) ∧
    ∀ a ∈ (TestRun_call g agent game_name max_rounds_per_game).sentActions, a < g.n := by
  have hsent : (TestRun_call g agent game_name max_rounds_per_game).sentActions
      = (TestRun_call g agent game_name max_rounds_per_game).candActions.map
          (fun a => if g.n ≤ a then 0 else a) := by
    unfold TestRun_call
    exact TestRun_foldl_sent g agent (List.range max_rounds_per_game) _ (by simp)
  refine ⟨hsent, ?_⟩
  intro a ha
  rw [hsent] at ha
  obtain ⟨c, _, hc⟩ := List.mem_map.mp ha
  by_cases h : g.n ≤ c
  · rw [if_pos h] at hc; omega
  · rw [if_neg h] at hc; omega

/-- Witness for `TestRun_actions_remapped`: a one-action game and an agent
    that always returns the out-of-range candidate 7; every sent action is
    the no-op 0. -/
theorem TestRun_actions_remapped_witness :
    0 < (1 : Nat) ∧
    ((TestRun_call
        { init := (), reset := fun _ => ((), ()), step := fun _ _ => ((), (), 3, false), n := 1 }
        { init := (), call := fun _ _ _ => ((), 7) }
        ("pong") 2).sentActions
      = (TestRun_call
        { init := (), reset := fun _ => ((), ()), step := fun _ _ => ((), (), 3, false), n := 1 }
        { init := (), call := fun _ _ _ => ((), 7) }
        ("pong") 2).candActions.map (fun a => if 1 ≤ a then 0 else a) ∧
    ∀ a ∈ (TestRun_call
        { init := (), reset := fun _ => ((), ()), step := fun _ _ => ((), (), 3, false), n := 1 }
        { init := (), call := fun _ _ _ => ((), 7) }
        ("pong") 2).sentActions, a < 1) :=
  ⟨by decide,
    TestRun_actions_remapped
      { init := (), reset := fun _ => ((), ()), step := fun _ _ => ((), (), 3, false), n := 1 }
      { init := (), call := fun _ _ _ => ((), 7) }
      ("pong") 2 (by decide)⟩

lemma TestRun_step_carry (g : GymEnv σ Obs) (agent : AgentM α Obs)
    (i : Nat) (s : TestRunState σ α Obs)
    (h : s.agentRewards ++ [s.reward] = 0 :: s.result.rewards) :
    (TestRun_step g agent i s).agentRewards ++ [(TestRun_step g agent i s).reward]
      = 0 :: (TestRun_step g agent i s).result.rewards := by
  simp only [TestRun_step]
  by_cases hd : (g.step s.env (if g.n ≤ (agent.call s.ag s.observation s.reward).2 then 0
      else (agent.call s.ag s.observation s.reward).2)).2.2.2
  · simp only [hd, if_pos]
    simp only [List.append_assoc, List.singleton_append, h]
    simp
  · simp only [hd, if_neg, Bool.false_eq_true, not_false_eq_true]
    simp only [List.append_assoc, List.singleton_append, h]
    simp

lemma TestRun_foldl_carry (g : GymEnv σ Obs) (agent : AgentM α Obs) :
    ∀ (rounds : List Nat) (s : TestRunState σ α Obs),
      s.agentRewards ++ [s.reward] = 0 :: s.result.rewards →
      (rounds.foldl (fun s i => TestRun_step g agent i s) s).agentRewards ++
          [(rounds.foldl (fun s i => TestRun_step g agent i s) s).reward]
        = 0 :: (rounds.foldl (fun s i => TestRun_step g agent i s) s).result.rewards := by
  intro rounds
  induction rounds with
  | nil => intro s h; simpa using h
  | cons r rs ih =>
      intro s h
      simp only [List.foldl_cons]
      exact ih _ (TestRun_step_carry g agent r s h)

/-- Claim C10: the reward argument passed to the agent is 0 on the very
    first turn, and on every later turn it is exactly the reward the game
    returned on the previous turn — also on the first turn after an
    episode termination and reset, where it is the terminal reward of the
    episode that just finished rather than 0. -/
theorem TestRun_reward_carry_over (g : GymEnv σ Obs) (agent : AgentM α Obs)
    (game_name : String) (max_rounds_per_game : Nat) :
    (∀ d : Int, 0 < max_rounds_per_game →
      (TestRun_call g agent game_name max_rounds_per_game).agentRewards.getD 0 d = 0) ∧
    (∀ (d : Int) (t : Nat), t + 1 < max_rounds_per_game →
      (TestRun_call g agent game_name max_rounds_per_game).agentRewards.getD (t + 1) d
        = (TestRun_call g agent game_name max_rounds_per_game).result.rewards.getD t d) := by
  have hc : (TestRun_call g agent game_name max_rounds_per_game).agentRewards ++
        [(TestRun_call g agent game_name max_rounds_per_game).reward]
      = 0 :: (TestRun_call g agent game_name max_rounds_per_game).result.rewards := by
    unfold TestRun_call
    exact TestRun_foldl_carry g agent (List.range max_rounds_per_game) _ (by simp)
  have hR : (TestRun_call g agent game_name max_rounds_per_game).result.rewards.length
      = max_rounds_per_game := by
    have := TestRun_foldl_lengths g agent (List.range max_rounds_per_game)
      { env := (g.reset g.init).1, ag := agent.init, observation := (g.reset g.init).2, reward := 0,
        result := { rewards := [], dones := [], games := [(game_name, 0)] },
        candActions := [], sentActions := [], agentRewards := [], doneFlags := [] }
    simpa [TestRun_call, List.length_range] using this.1
  have hA : (TestRun_call g agent game_name max_rounds_per_game).agentRewards.length
      = max_rounds_per_game := by
    have := congrArg List.length hc
    simp only [List.length_append, List.length_cons, List.length_nil, hR] at this
    omega
  constructor
  · intro d hm
    have h0 : (0 : Nat) < (TestRun_call g agent game_name max_rounds_per_game).agentRewards.length := by
      rw [hA]; exact hm
    have := List.getD_append
      (TestRun_call g agent game_name max_rounds_per_game).agentRewards
      [(TestRun_call g agent game_name max_rounds_per_game).reward] d 0 h0
    rw [← this, hc]
    simp
  · intro d t ht
    have h1 : t + 1 < (TestRun_call g agent game_name max_rounds_per_game).agentRewards.length := by
      rw [hA]; exact ht
    have := List.getD_append
      (TestRun_call g agent game_name max_rounds_per_game).agentRewards
      [(TestRun_call g agent game_name max_rounds_per_game).reward] d (t + 1) h1
    rw [← this, hc]
    simp

/-- A one-action game that ends every episode immediately with terminal
    reward 7: used to exhibit the reward carry-over across a reset. -/
def alwaysDoneEnv : GymEnv Unit Unit :=
  { init := (), reset := fun _ => ((), ()), step := fun _ _ => ((), (), 7, true), n := 1 }

/-- An agent that always plays action 0. -/
def noopAgent : AgentM Unit Unit :=
  { init := (), call := fun _ _ _ => ((), 0) }

/-- Witness for `TestRun_reward_carry_over`: with `alwaysDoneEnv` every
    turn terminates an episode, and the reward passed to the agent on turn
    1 — right after the reset — is the terminal reward 7, not 0. -/
theorem TestRun_reward_carry_over_witness :
    (TestRun_call alwaysDoneEnv noopAgent ("pong") 2).agentRewards.getD 0 (-5) = 0 ∧
    (TestRun_call alwaysDoneEnv noopAgent ("pong") 2).agentRewards.getD 1 (-5)
      = (TestRun_call alwaysDoneEnv noopAgent ("pong") 2).result.rewards.getD 0 (-5) ∧
    (TestRun_call alwaysDoneEnv noopAgent ("pong") 2).agentRewards = [0, 7] ∧
    (TestRun_call alwaysDoneEnv noopAgent ("pong") 2).result.dones = [0, 1] :=
  ⟨(TestRun_reward_carry_over alwaysDoneEnv noopAgent ("pong") 2).1 (-5) (by decide),
   (TestRun_reward_carry_over alwaysDoneEnv noopAgent ("pong") 2).2 (-5) 0 (by decide),
   by decide, by decide⟩

lemma TestRun_step_dones (g : GymEnv σ Obs) (agent : AgentM α Obs) (i : Nat)
    (s : TestRunState σ α Obs) :
    ∃ d : Bool,
      (TestRun_step g agent i s).doneFlags = s.doneFlags ++ [d] ∧
      (TestRun_step g agent i s).result.dones
        = if d then s.result.dones ++ [i] else s.result.dones := by
  cases hb : (g.step s.env (if g.n ≤ (agent.call s.ag s.observation s.reward).2 then 0
      else (agent.call s.ag s.observation s.reward).2)).2.2.2 with
  | false => exact ⟨false, by simp [TestRun_step, hb], by simp [TestRun_step, hb]⟩
  | true => exact ⟨true, by simp [TestRun_step, hb], by simp [TestRun_step, hb]⟩

lemma TestRun_call_dones_characterization (g : GymEnv σ Obs) (agent : AgentM α Obs)
    (game_name : String) :
    ∀ max_rounds_per_game : Nat,
      (TestRun_call g agent game_name max_rounds_per_game).doneFlags.length
        = max_rounds_per_game ∧
      (∀ t, t ∈ (TestRun_call g agent game_name max_rounds_per_game).result.dones ↔
        (t < max_rounds_per_game ∧
          (TestRun_call g agent game_name max_rounds_per_game).doneFlags.getD t false
            = true)) := by
  intro m
  induction m with
  | zero =>
      refine ⟨rfl, ?_⟩
      intro t
      simp [TestRun_call]
  | succ m ih =>
      have hstep : TestRun_call g agent game_name (m + 1)
          = TestRun_step g agent m (TestRun_call g agent game_name m) := by
        simp only [TestRun_call, List.range_succ, List.foldl_append, List.foldl_cons,
          List.foldl_nil]
      obtain ⟨d, hf, hdn⟩ := TestRun_step_dones g agent m (TestRun_call g agent game_name m)
      have hlen := ih.1
      rw [hstep, hf, hdn]
      refine ⟨by rw [List.length_append, hlen]; rfl, ?_⟩
      intro t
      have hih := ih.2 t
      rcases Nat.lt_trichotomy t m with ht | ht | ht
      · have hg : (((TestRun_call g agent game_name m).doneFlags) ++ [d]).getD t false
            = (TestRun_call g agent game_name m).doneFlags.getD t false :=
          List.getD_append _ _ _ _ (by rw [hlen]; exact ht)
        rw [hg]
        by_cases hd : d = true
        · rw [if_pos hd]
          simp only [List.mem_append, List.mem_singleton]
          constructor
          · rintro (h | h)
            · exact ⟨by omega, (hih.mp h).2⟩
            · exact absurd h (by omega)
          · intro h
            exact Or.inl (hih.mpr ⟨ht, h.2⟩)
        · rw [if_neg hd]
          constructor
          · intro h
            exact ⟨by omega, (hih.mp h).2⟩
          · intro h
            exact hih.mpr ⟨ht, h.2⟩
      · have hg : (((TestRun_call g agent game_name m).doneFlags) ++ [d]).getD t false = d := by
          rw [ht, List.getD_append_right _ _ _ _ (le_of_eq hlen), hlen, Nat.sub_self]
          rfl
        rw [hg]
        by_cases hd : d = true
        · rw [if_pos hd]
          simp only [List.mem_append, List.mem_singleton]
          constructor
          · intro _
            exact ⟨by omega, hd⟩
          · intro _
            exact Or.inr ht
        · rw [if_neg hd]
          constructor
          · intro h
            exact absurd (hih.mp h).1 (by omega)
          · intro h
            exact absurd h.2 hd
      · have hmem : t ∉ (TestRun_call g agent game_name m).result.dones := by
          intro h
          exact absurd (hih.mp h).1 (by omega)
        by_cases hd : d = true
        · rw [if_pos hd]
          simp only [List.mem_append, List.mem_singleton]
          constructor
          · rintro (h | h)
            · exact absurd h hmem
            · exact absurd h (by omega)
          · intro h
            exact absurd h.1 (by omega)
        · rw [if_neg hd]
          constructor
          · intro h
            exact absurd h hmem
          · intro h
            exact absurd h.1 (by omega)

/- ### TrainingRun -/

/-- The attributes of a successfully constructed `TrainingRun` object that
    `__call__` reads: the per-game quota table `game_rounds_left`, the
    per-game environment table `envs`, and the trace, stored under the
    name `trace_result` (the name `result` that `__call__` reads is never
    assigned anywhere). -/
structure TrainingRunObj (σ : Type) where
  game_rounds_left : List (String × Nat)
  envs : List (String × σ)
  trace_result : BenchmarkResult

/-- `TrainingRun.__init__` (lines 311-318).  Sets `agent`, `training_set`,
    `parms` and `self.envs = defaultdict(self.create_env)` without error,
    then evaluates the dict comprehension
    `{game: self.max_test_game_rounds for game in training_set}`:
    `max_test_game_rounds` is defined nowhere in the class or the module,
    so the comprehension body raises `AttributeError` on its first
    element.  Only an empty training set constructs successfully, with an
    empty quota table, an empty environment table and the fresh empty
    `trace_result` (`BenchmarkResult(agent)` with no game).  Returns the
    constructed object state on success. -/
def TrainingRun_init (training_set : List String) : Except String (TrainingRunObj σ) :=
  match training_set with
  | [] => .ok { game_rounds_left := [], envs := [],
                trace_result := { rewards := [], dones := [], games := [] } }
  | _ :: _ => .error ("AttributeError: TrainingRun instance has no attribute max_test_game_rounds")

/-- `TrainingRun.total_rounds_left`: `sum(self.game_rounds_left.values())`.
    The per-game remaining-round table is an association list in dict
    insertion order. -/
def total_rounds_left (q : List (String × Nat)) : Nat := (q.map Prod.snd).sum

/-- The scan loop of `TrainingRun.sample_env` (lines 331-337): iterate over
    the remaining-rounds table accumulating `cumulative_sum`, and break at
    the first game whose cumulative sum reaches the threshold
    (`cumulative_sum >= threshold`).  When the loop falls through without a
    break, the Python loop variable holds the last item, which is what the
    method goes on to use; on an empty table the loop variable is unbound
    (`none`).  The drawn threshold `random.randint(0, total_rounds_left)`
    is inclusive on both ends. -/
def TrainingRun_sample_env_scan : List (String × Nat) → Nat → Nat → Option String
  | [], _, _ => none
  | [p], _, _ => some p.1
  | p :: p2 :: rest, cumulative_sum, threshold =>
      if threshold ≤ cumulative_sum + p.2 then some p.1
      else TrainingRun_sample_env_scan (p2 :: rest) (cumulative_sum + p.2) threshold

/-- Dict lookup `self.game_rounds_left[game]` (first matching key). -/
def lookupQuota (q : List (String × Nat)) (g : String) : Nat :=
  match q.find? (fun p => p.1 == g) with
  | some p => p.2
  | none => 0

/-- The subscript `self.envs[game]` on
    `self.envs = defaultdict(self.create_env)` (lines 315, 338).  A stored
    entry would be returned directly, but on a missing key the defaultdict
    calls its factory with no arguments, and the bound method `create_env`
    takes a `game_name` argument — `TypeError`.  Since the factory always
    raises, no entry is ever stored, and every access on the initially
    empty table raises. -/
def TrainingRun_envs_getitem (envs : List (String × σ)) (g : String) : Except String σ :=
  match envs.find? (fun p => p.1 == g) with
  | some p => .ok p.2
  | none => .error ("TypeError: create_env() takes exactly 2 arguments (1 given)")

/-- `TrainingRun.sample_env` (lines 323-338): run the scan, then execute
    `return game, self.envs[game]` — the defaultdict subscript that raises
    `TypeError` whenever the selected game has no stored environment,
    which on a real object is always. -/
def TrainingRun_sample_env (q : List (String × Nat)) (envs : List (String × σ))
    (threshold : Nat) : Except String (String × σ) :=
  match TrainingRun_sample_env_scan q 0 threshold with
  | none => .error ("UnboundLocalError: game")
  | some game =>
      match TrainingRun_envs_getitem envs game with
      | .error e => .error (e)
      | .ok env => .ok (game, env)

/-- `TrainingRun.__call__` (lines 343-363).  While
    `total_rounds_left() > 0`, the body first calls `sample_env()` (line
    346, drawing `threshold = random.randint(0, total_rounds_left)` — one
    stream value reduced into the inclusive range) and then
    `self.result.record_game(...)` (line 347).  `sample_env` raises
    `TypeError` unless the selected game already has a stored environment,
    and `self.result` is never assigned (`__init__` sets `trace_result`),
    so `record_game` raises `AttributeError` on the path where
    `sample_env` would succeed: every entered iteration raises, a second
    iteration is unreachable, and the loop needs no recursion.  When the
    guard is false at entry the method completes (returning `None`; the
    run's trace is the object's `trace_result`, returned here for
    inspection) after zero inner-loop turns. -/
def TrainingRun_call (rng : Nat → Nat) (rngIdx : Nat) (o : TrainingRunObj σ) :
    Except String BenchmarkResult :=
  if total_rounds_left o.game_rounds_left = 0 then .ok (o.trace_result)
  else
    match TrainingRun_sample_env o.game_rounds_left o.envs
        (rng rngIdx % (total_rounds_left o.game_rounds_left + 1)) with
    | .error e => .error (e)
    | .ok _ => .error ("AttributeError: TrainingRun instance has no attribute result")

/-- Claim C4 (code bug): the interleaved training loop can never run its
    claimed `sum(quota)` inner turns.  `TrainingRun` cannot even be
    constructed for a non-empty training set (undefined
    `self.max_test_game_rounds`); and granted a quota table with positive
    total, the first outer iteration of `__call__` raises `TypeError`
    inside `sample_env` (the defaultdict factory takes no arguments) — or
    `AttributeError` reading the never-assigned `self.result` if the
    environment lookup were to succeed — after zero inner-loop turns,
    although the quota sum is positive.  Only the degenerate zero-total
    table lets the loop exit normally, with zero turns. -/
theorem TrainingRun_call_raises_before_any_turn :
    TrainingRun_init (σ := Unit) ["alien"]
      = .error ("AttributeError: TrainingRun instance has no attribute max_test_game_rounds") ∧
    TrainingRun_call (fun _ => 0) 0
        ({ game_rounds_left := [("alien", 1)], envs := [],
           trace_result := { rewards := [], dones := [], games := [] } } : TrainingRunObj Unit)
      = .error ("TypeError: create_env() takes exactly 2 arguments (1 given)") ∧
    total_rounds_left [("alien", 1)] = 1 ∧
    TrainingRun_call (fun _ => 0) 0
        ({ game_rounds_left := [("alien", 1)], envs := [("alien", ())],
           trace_result := { rewards := [], dones := [], games := [] } } : TrainingRunObj Unit)
      = .error ("AttributeError: TrainingRun instance has no attribute result") ∧
    TrainingRun_call (fun _ => 0) 0
        ({ game_rounds_left := [], envs := [],
           trace_result := { rewards := [], dones := [], games := [] } } : TrainingRunObj Unit)
      = .ok ({ rewards := [], dones := [], games := [] }) :=
  ⟨rfl, rfl, rfl, rfl, rfl⟩

/-- Claim C5 (code bug): `sample_env` never returns any game at all — its
    own return line `return game, self.envs[game]` raises `TypeError` on
    every call of a real `TrainingRun` (the defaultdict factory takes no
    arguments and nothing ever stores an environment) — contradicting its
    docstring, which describes returning sampled games while "not sampling
    games that have already exhausted their round quota".  Moreover the
    selection scan feeding that return violates the promised exclusion
    too: with drawn threshold 0 — which the inclusive
    `random.randint(0, total_rounds_left)` produces — the break condition
    `cumulative_sum >= threshold` already holds at cumulative sum 0, so
    the loop variable holds the first game even when its remaining quota
    is 0 and the total is positive. -/
theorem sample_env_raises_and_scan_selects_zero_quota :
    TrainingRun_sample_env_scan [("air_raid", 0), ("alien", 5)] 0 0 = some ("air_raid") ∧
    lookupQuota [("air_raid", 0), ("alien", 5)] ("air_raid") = 0 ∧
    0 < total_rounds_left [("air_raid", 0), ("alien", 5)] ∧
    TrainingRun_sample_env [("air_raid", 0), ("alien", 5)] ([] : List (String × Unit)) 0
      = .error ("TypeError: create_env() takes exactly 2 arguments (1 given)") :=
  ⟨rfl, rfl, by decide, rfl⟩

/-- Claim C9: episode boundaries record terminations only.  For `TestRun`,
    an index is in `dones` exactly when the game reported `done = true` on
    that turn (both directions, for every agent, game and budget).  For
    `TrainingRun`, construction raises for every non-empty training set,
    so the only completed training run is the empty-set one, whose loop
    body never executes and whose trace has an empty boundary list — the
    unconditional `record_done` on line 363 (which would record
    non-termination exits) is unreachable, and every completed trace
    therefore satisfies the property. -/
theorem episode_boundaries_record_terminations_only (g : GymEnv σ Obs)
    (agent : AgentM α Obs) (game_name : String) (max_rounds_per_game : Nat) :
    (∀ t, t ∈ (TestRun_call g agent game_name max_rounds_per_game).result.dones ↔
      (t < max_rounds_per_game ∧
        (TestRun_call g agent game_name max_rounds_per_game).doneFlags.getD t false = true)) ∧
    (∀ (g0 : String) (ts : List String),
      TrainingRun_init (σ := σ) (g0 :: ts)
        = .error ("AttributeError: TrainingRun instance has no attribute max_test_game_rounds")) ∧
    (∃ o : TrainingRunObj σ,
      TrainingRun_init (σ := σ) [] = .ok o ∧ o.trace_result.dones = [] ∧
      ∀ (rng : Nat → Nat) (i : Nat), TrainingRun_call rng i o = .ok (o.trace_result)) :=
  ⟨fun t => (TestRun_call_dones_characterization g agent game_name max_rounds_per_game).2 t,
   fun _ _ => rfl,
   ⟨{ game_rounds_left := [], envs := [],
      trace_result := { rewards := [], dones := [], games := [] } },
    rfl, rfl, fun _ _ => rfl⟩⟩

/- ### TransferBenchmark -/

/-- The methods actually defined on `TransferBenchmark` in the source
    (class body plus nothing inherited beyond `object`). -/
def TransferBenchmark_method_names : List String :=
  ["__init__", "test_set", "training_set", "default_dir", "game_agent_filename",
   "fold_agent_filename", "tested_agent_filename", "ensure_game_agents", "do_folds"]

/-- Python attribute access `self.<name>` on a `TransferBenchmark`
    instance, for method names: `AttributeError` when the class does not
    define the method. -/
def TransferBenchmark_getattr (name : String) : Except String Unit :=
  if TransferBenchmark_method_names.contains name then .ok ()
  else .error ("AttributeError: " ++ name)

/-- `TransferBenchmark.ensure_game_agents`: for each game not yet in
    `self.game_agents` (initially empty, so every game), clone the
    untrained agent and call `self.test(game_agent, game_name)`.  The class
    defines no method `test`, so the attribute access raises on the first
    game. -/
def ensure_game_agents : List String → Except String Unit
  | [] => .ok ()
  | _game_name :: rest =>
      match TransferBenchmark_getattr ("test") with
      | .error e => .error (e)
      | .ok _ => ensure_game_agents rest

/-- Python list index assignment `lst[i] = x`: `IndexError` when `i` is
    not an index of an existing element. -/
def list_index_assign (l : List α) (i : Nat) (x : α) : Except String (List α) :=
  if i < l.length then .ok (l.set i x)
  else .error ("IndexError: list assignment index out of range")

/-- The `for fold_num in range(len(self.parms.folds))` loop of
    `TransferBenchmark.do_folds`, carrying `self.fold_agents` (initialized
    to `[]` in `__init__` and never resized).  Per iteration, after
    `training_set` and the clone succeed, the body executes
    `self.fold_agents[fold_num] = fold_agent` — an index assignment into
    the empty list — and then `self.train(fold_agent, training_set)`, an
    access to a method the class never defines (the `TrainingRun`
    constructed on the line between the two is never invoked).  The agent
    value is irrelevant to either failure and is modelled as `Unit`;
    arguments: the `fold_agents` list, the current fold index, folds still
    to process. -/
def do_folds_fold_loop : List Unit → Nat → Nat → Except String Unit
  | _fold_agents, _fold_num, 0 => .ok ()
  | fold_agents, fold_num, count + 1 =>
      match list_index_assign fold_agents fold_num () with
      | .error e => .error (e)
      | .ok fas =>
          match TransferBenchmark_getattr ("train") with
          | .error e => .error (e)
          | .ok _ => do_folds_fold_loop fas (fold_num + 1) count

/-- `TransferBenchmark.do_folds`: first `self.ensure_game_agents()`, then
    the per-fold loop over `range(len(self.parms.folds))`. -/
def do_folds (game_names : List String) (num_folds : Nat) : Except String Unit :=
  match ensure_game_agents game_names with
  | .error e => .error (e)
  | .ok _ => do_folds_fold_loop [] 0 num_folds

/-- Claim C1 (code bug): `do_folds` can never run a fold to completion.
    On the real suite it raises `AttributeError` for the undefined method
    `test` inside `ensure_game_agents` before reaching any fold; and even
    entering the fold loop directly, the first iteration raises
    `IndexError` assigning `self.fold_agents[0]` on the empty list (with
    the undefined `self.train` waiting right behind it).  No training run
    is ever invoked and no `(fold, game)` result is ever recorded, so the
    claimed per-fold train/snapshot/evaluate procedure never happens. -/
theorem do_folds_crashes_before_any_fold :
    do_folds GAMES 5 = .error ("AttributeError: test") ∧
    do_folds_fold_loop [] 0 5 = .error ("IndexError: list assignment index out of range") :=
  ⟨rfl, rfl⟩

end AtariMultitask
